import Mathlib

/-!
Verification of the phase-sequencing and crossfade-transition engine of
phusic (src/src/phusic.py) against its design document.

The embedding translates the relevant Python code into executable Lean
definitions: the sequence builder `_get_phases` (lines 118-127), the
transition engine `_change_phase` / `_set_phase` / `_draw`
(lines 181-254), and the input dispatch of `run` (lines 62-88).
Python floats in the fade accumulator are modelled as exact rationals,
which is the arithmetic the numerical claims are stated over; Python
exceptions and process exits are modelled by an explicit result type.
The circular linked list comes from the modules `linked_list` and
`util`, which are not part of the provided sources; those two pieces
are modelled from the design document, as marked on each definition.
-/

namespace Phusic

/-! ## Sequence builder (phusic.py lines 118-127) -/

/-- Errors the Python interleaving loop can raise: `ValueError` from
`max()` applied to an empty sequence of groups, and `ZeroDivisionError`
from `i % len(phase)` when a group has length 0. -/
inductive BuildError
  | valueError
  | zeroDivisionError
deriving DecidableEq, Repr

/-- One round of the Python inner loop `for phase in phases:` at round
index `i`: append each group entry at index `i % len(phase)`, in group
order, raising `ZeroDivisionError` on a zero-length group. -/
def roundPicks (i : Nat) : List (List α) → Except BuildError (List α)
  | [] => Except.ok []
  | g :: gs =>
    if h : g.length = 0 then Except.error BuildError.zeroDivisionError
    else do
      let rest ← roundPicks i gs
      pure (g.get ⟨i % g.length, Nat.mod_lt i (Nat.pos_of_ne_zero h)⟩ :: rest)

/-- The outer loop `for i in range(max_length):`, concatenating the picks
of the given round indices. -/
def roundsConcat (phases : List (List α)) : List Nat → Except BuildError (List α)
  | [] => Except.ok []
  | i :: is => do
    let r ← roundPicks i phases
    let rest ← roundsConcat phases is
    pure (r ++ rest)

/-- Python `max(len(p) for p in phases)` on a non-empty `phases`: the
greatest group length (the fold with 0 agrees with `max` on any
non-empty list of naturals). -/
def maxLenOf (phases : List (List α)) : Nat :=
  (phases.map List.length).foldl Nat.max 0

/-- The interleaving part of `Game._get_phases` (phusic.py lines
118-127): `max_length = max(len(p) for p in phases)` followed by the
double loop appending `phase[i % len(phase)]`. -/
def getPhases (phases : List (List α)) : Except BuildError (List α) :=
  match phases with
  | [] => Except.error BuildError.valueError
  | _ :: _ => roundsConcat phases (List.range (maxLenOf phases))

/-- Description following the design document (sections 4.1 and 8):
round `i` contains each group element at index `i mod len_k`, in
group-declaration order.  Stated with `getD`; the default is never used
when all groups are non-empty. -/
def specRound (phases : List (List α)) (d : α) (i : Nat) : List α :=
  phases.map (fun g => g.getD (i % g.length) d)

/-- Description following the design document: the built sequence is the
concatenation of the rounds for `i` from 0 up to the maximal group
length minus one. -/
def specSequence (phases : List (List α)) (d : α) : List α :=
  List.flatten ((List.range (maxLenOf phases)).map (specRound phases d))

/-! ## Transition engine state (phusic.py lines 16-51, 161-254)

A phase value of type `α` stands for one loaded `Phase` object (its
`pygame` sound and background surface); equal values alias the same
sound, exactly as the same `Phase` object reused at several ring
positions does in Python. -/

/-- `Game.TOTAL_FADE_STEPS` (phusic.py line 16). -/
def TOTAL_FADE_STEPS : ℚ := 255

/-- `Game.TRANSITION_DURATION` in seconds (phusic.py line 17). -/
def TRANSITION_DURATION : Nat := 5

/-- `Game.FPS` (phusic.py line 18). -/
def FPS : Nat := 60

/-- `self.frames_for_transition = TRANSITION_DURATION * FPS`
(phusic.py line 48). -/
def frames_for_transition : Nat := TRANSITION_DURATION * FPS

/-- `self.fade_step_increment = TOTAL_FADE_STEPS / float(frames_for_transition)`
(phusic.py lines 49-51), as an exact rational. -/
def fade_step_increment : ℚ := TOTAL_FADE_STEPS / (frames_for_transition : ℚ)

/-- Python `int()` applied to a non-negative-or-negative rational:
truncation toward zero.  Every fade value it is applied to is
non-negative, where truncation agrees with the floor. -/
def pyInt (q : ℚ) : ℤ :=
  if 0 ≤ q then q.num / (q.den : ℤ) else -((-q).num / (((-q).den : Nat) : ℤ))

/-- Outcome of running a piece of the Python engine: a normal result, a
process exit with a status code (`exit(1)` on an empty list), or an
uncaught Python exception. -/
inductive PyResult (σ : Type u)
  | ok : σ → PyResult σ
  | exit : Nat → PyResult σ
  | error : String → PyResult σ

/-- Sequencing of engine steps: exits and uncaught exceptions abort. -/
def pyBind : PyResult σ → (σ → PyResult σ) → PyResult σ
  | PyResult.ok s, f => f s
  | PyResult.exit c, _ => PyResult.exit c
  | PyResult.error m, _ => PyResult.error m

/-- Modelled from the spec: a node of the `linked_list` module (not in
the provided sources).  Per design document section 3, a node either
sits in the circular ring built over the phase sequence (identified by
its position) or is a freshly constructed detached node with no links,
holding an optional value — `Node(None)` is the detached placeholder,
`Node(ending)` a detached ending node. -/
inductive NodeId (α : Type u)
  | ringIdx : Nat → NodeId α
  | detached : Option α → NodeId α
deriving DecidableEq, Repr

/-- Modelled from the spec: `node.value` over the ring `rg` built by
`util.create_linked_list` from the ordered phase sequence (design
document section 4.2). -/
def nodeValue (rg : List α) : NodeId α → Option α
  | NodeId.ringIdx i => rg.get? i
  | NodeId.detached v => v

/-- Modelled from the spec: `node.prev` — the ring wraps circularly,
and a detached node has no links (design document sections 3, 4.2). -/
def nodePrev (rg : List α) : NodeId α → Option (NodeId α)
  | NodeId.ringIdx i =>
      if rg.length = 0 then none
      else some (NodeId.ringIdx ((i + rg.length - 1) % rg.length))
  | NodeId.detached _ => none

/-- Modelled from the spec: `node.next` — the ring wraps circularly,
and a detached node has no links (design document sections 3, 4.2). -/
def nodeNext (rg : List α) : NodeId α → Option (NodeId α)
  | NodeId.ringIdx i =>
      if rg.length = 0 then none
      else some (NodeId.ringIdx ((i + 1) % rg.length))
  | NodeId.detached _ => none

/-- State of one `pygame` Sound: its volume and whether it is playing. -/
structure SoundState where
  volume : ℚ
  playing : Bool
deriving DecidableEq, Repr

/-- `sound.set_volume(v)` on the sound of phase `p`. -/
def soundSetVolume [DecidableEq α] (p : α) (v : ℚ) (f : α → SoundState) : α → SoundState :=
  fun x => if x = p then { volume := v, playing := (f x).playing } else f x

/-- `sound.play(-1)` on the sound of phase `p` (looped playback). -/
def soundPlay [DecidableEq α] (p : α) (f : α → SoundState) : α → SoundState :=
  fun x => if x = p then { volume := (f x).volume, playing := true } else f x

/-- `sound.stop()` on the sound of phase `p`. -/
def soundStop [DecidableEq α] (p : α) (f : α → SoundState) : α → SoundState :=
  fun x => if x = p then { volume := (f x).volume, playing := false } else f x

/-- The mutable engine fields of `Game` (phusic.py lines 40-46):
`fade_step`, `is_fading`, `curr_phase`, `next_phase`, plus the state of
every phase sound and of every background alpha touched by `_draw`. -/
structure GameState (α : Type u) where
  fade_step : ℚ
  is_fading : Bool
  curr_phase : NodeId α
  next_phase : NodeId α
  sounds : α → SoundState
  alphas : α → ℤ

/-- The tail of `Game._change_phase` (phusic.py lines 193-200): record
the fade target, reset the accumulator, start the target sound at
volume 0.  A node whose `value` is `None` raises `AttributeError` at
`phase.sound`. -/
def start_fade [DecidableEq α] (rg : List α) (nd : NodeId α) (s : GameState α) :
    PyResult (GameState α) :=
  let s1 := { s with is_fading := true, fade_step := 0, next_phase := nd }
  match nodeValue rg nd with
  | none => PyResult.error "AttributeError: NoneType has no attribute sound"
  | some p =>
      PyResult.ok { s1 with sounds := soundPlay p (soundSetVolume p 0 s1.sounds) }

/-- `Game._change_phase` (phusic.py lines 181-200): drop the request
while fading; on a `None` target fall back to the ring head, exiting
with status 1 if the list is empty; then start the fade. -/
def change_phase [DecidableEq α] (rg : List α) (phase_node : Option (NodeId α))
    (s : GameState α) : PyResult (GameState α) :=
  if s.is_fading then PyResult.ok s
  else
    match phase_node with
    | none =>
        if rg.isEmpty then PyResult.exit 1
        else start_fade rg (NodeId.ringIdx 0) s
    | some nd => start_fade rg nd s

/-- `Game._set_phase` (phusic.py lines 202-215): stop the pending sound
when its node has a value, stop the current sound, clear the fading
flag and the accumulator, then dereference the target node — raising
`AttributeError` when the target is `None` — and start its sound at
full volume. -/
def set_phase [DecidableEq α] (rg : List α) (phase_node : Option (NodeId α))
    (s : GameState α) : PyResult (GameState α) :=
  let s1 : GameState α :=
    match nodeValue rg s.next_phase with
    | some q => { s with sounds := soundStop q s.sounds }
    | none => s
  match nodeValue rg s1.curr_phase with
  | none => PyResult.error "AttributeError: NoneType has no attribute sound"
  | some c =>
      let s2 := { s1 with sounds := soundStop c s1.sounds, is_fading := false, fade_step := 0 }
      match phase_node with
      | none => PyResult.error "AttributeError: NoneType has no attribute value"
      | some nd =>
          match nodeValue rg nd with
          | none => PyResult.error "AttributeError: NoneType has no attribute sound"
          | some p =>
              PyResult.ok { s2 with
                sounds := soundPlay p (soundSetVolume p 1 s2.sounds),
                curr_phase := nd }

/-- The state effect of one `Game._draw` tick (phusic.py lines
217-254).  While fading: set the incoming background alpha to
`int(fade_step * (255 / TOTAL_FADE_STEPS))`, set the incoming volume to
`alpha / 255` and the outgoing volume to `1 - alpha / 255`, accumulate
`fade_step`, and when it exceeds `TOTAL_FADE_STEPS` stop the outgoing
sound and promote the pending node to current.  The pure rendering
calls (blits, text, flip) have no engine-state effect. -/
def draw_tick [DecidableEq α] (rg : List α) (s : GameState α) : PyResult (GameState α) :=
  if s.is_fading then
    match nodeValue rg s.next_phase, nodeValue rg s.curr_phase with
    | some np, some cp =>
        let alpha : ℤ := pyInt (s.fade_step * (255 / TOTAL_FADE_STEPS))
        let nv : ℚ := (alpha : ℚ) / 255
        let sounds1 := soundSetVolume cp (1 - nv) (soundSetVolume np nv s.sounds)
        let alphas1 := fun x => if x = np then alpha else s.alphas x
        let fs1 := s.fade_step + fade_step_increment
        if fs1 > TOTAL_FADE_STEPS then
          PyResult.ok { s with
            is_fading := false, fade_step := fs1,
            sounds := soundStop cp sounds1, alphas := alphas1,
            curr_phase := s.next_phase }
        else
          PyResult.ok { s with fade_step := fs1, sounds := sounds1, alphas := alphas1 }
    | _, _ => PyResult.error "AttributeError: NoneType has no attribute background"
  else
    match nodeValue rg s.curr_phase with
    | some _ => PyResult.ok s
    | none => PyResult.error "AttributeError: NoneType has no attribute background"

/-- `n` consecutive draw ticks. -/
def ticksN [DecidableEq α] (rg : List α) : Nat → GameState α → PyResult (GameState α)
  | 0, s => PyResult.ok s
  | n + 1, s => pyBind (draw_tick rg s) (ticksN rg n)

/-! ## Input dispatch (phusic.py lines 62-88) -/

/-- The keys distinguished by the event loop; `other n` stands for any
further `pygame` key constant (used by ending and sfx bindings). -/
inductive Key
  | left
  | right
  | space
  | f11
  | keyF
  | keyC
  | other : Nat → Key
deriving DecidableEq, Repr

/-- One `KEYDOWN` event: the pressed key and whether `KMOD_CTRL` is in
the modifier state. -/
structure KeyEvent where
  key : Key
  ctrl : Bool
deriving DecidableEq, Repr

/-- The state-affecting commands of design document section 4.4. -/
inductive Command
  | toggleFullscreen
  | softPrev
  | softNext
  | hardPrev
  | hardNext
  | quitGame
  | softEnding : Key → Command
  | fireSfx : Key → Command
deriving DecidableEq, Repr

/-- The commands derived and executed for one `KEYDOWN` event by `run`
(phusic.py lines 62-88), in program order: the fullscreen toggle,
the plain arrow/space soft moves, the Ctrl-modified branch, the ending
bindings, and the sfx bindings.  The plain-key tests and the
Ctrl-modified block are separate `if` statements in the source, so both
can fire for the same event. -/
def deriveCommands (endingKeys sfxKeys : List Key) (e : KeyEvent) : List Command :=
  (if e.key = Key.f11 ∨ e.key = Key.keyF then [Command.toggleFullscreen] else [])
    ++ (if e.key = Key.left then [Command.softPrev] else [])
    ++ (if e.key = Key.right ∨ e.key = Key.space then [Command.softNext] else [])
    ++ (if e.ctrl then
          if e.key = Key.left then [Command.hardPrev]
          else if e.key = Key.right then [Command.hardNext]
          else if e.key = Key.keyC then [Command.quitGame]
          else []
        else [])
    ++ (endingKeys.filter (fun k => k = e.key)).map Command.softEnding
    ++ (sfxKeys.filter (fun k => k = e.key)).map Command.fireSfx

/-! ## Result projections and concrete states used by closed theorems -/

/-- Project the fading flag out of a run result. -/
def resultIsFading : PyResult (GameState α) → Option Bool
  | PyResult.ok s => some s.is_fading
  | _ => none

/-- Project the current node out of a run result. -/
def resultCurr : PyResult (GameState α) → Option (NodeId α)
  | PyResult.ok s => some s.curr_phase
  | _ => none

/-- Project the pending node out of a run result. -/
def resultNext : PyResult (GameState α) → Option (NodeId α)
  | PyResult.ok s => some s.next_phase
  | _ => none

/-- Project the volume of the sound of phase `p` out of a run result. -/
def resultVolume (r : PyResult (GameState α)) (p : α) : Option ℚ :=
  match r with
  | PyResult.ok s => some ((s.sounds p).volume)
  | _ => none

/-- A concrete two-phase ring: phases `10` and `20`. -/
def rg2 : List Nat := [10, 20]

/-- Sounds as loaded at startup: full volume, not playing. -/
def initSounds : Nat → SoundState := fun _ => { volume := 1, playing := false }

/-- Backgrounds as loaded at startup: fully opaque. -/
def initAlphas : Nat → ℤ := fun _ => 255

/-- A steady engine on `rg2`: current is the ring head, pending is the
detached placeholder `Node(None)` set up in `__init__`. -/
def steadyState : GameState Nat :=
  { fade_step := 0, is_fading := false, curr_phase := NodeId.ringIdx 0,
    next_phase := NodeId.detached none, sounds := initSounds, alphas := initAlphas }

/-- An in-flight transition on `rg2` from ring node 0 toward ring node
1, with the fade accumulator at `q`. -/
def fadingState (q : ℚ) : GameState Nat :=
  { steadyState with is_fading := true, fade_step := q, next_phase := NodeId.ringIdx 1 }

/-- A steady engine whose current node is a detached ending node
(created by `Node(ending)` in `run`), as after a completed transition
to an ending. -/
def endingState : GameState Nat :=
  { steadyState with curr_phase := NodeId.detached (some 99) }

/-- The one-phase ring of the design document scenario: a single group
with a single image. -/
def rg1 : List Nat := [10]

/-- The self-transition of the one-node ring: a soft move on a
single-phase ring fades ring node 0 into itself, so current and
pending are the same node and share one sound. -/
def selfFadingState : GameState Nat :=
  { fade_step := 0, is_fading := true, curr_phase := NodeId.ringIdx 0,
    next_phase := NodeId.ringIdx 0, sounds := initSounds, alphas := initAlphas }

/-! ## Sequence-builder theorems -/

theorem roundPicks_eq_specRound (i : Nat) (d : α) :
    ∀ (phases : List (List α)), (∀ g ∈ phases, g ≠ []) →
      roundPicks i phases = Except.ok (specRound phases d i)
  | [], _ => rfl
  | g :: gs, h => by
    have hg : g ≠ [] := h g (List.mem_cons_self g gs)
    have hlen : ¬ g.length = 0 := by
      simpa [List.length_eq_zero] using hg
    have ih := roundPicks_eq_specRound i d gs (fun x hx => h x (List.mem_cons_of_mem g hx))
    have hlt : i % g.length < g.length := Nat.mod_lt i (Nat.pos_of_ne_zero hlen)
    simp only [roundPicks, hlen, dite_false, ih, specRound, List.map_cons,
      bind, Except.bind, pure, Except.pure]
    simp [List.getElem?_eq_getElem hlt]

theorem roundsConcat_eq_flatten (phases : List (List α)) (d : α)
    (h : ∀ g ∈ phases, g ≠ []) :
    ∀ is : List Nat,
      roundsConcat phases is = Except.ok (List.flatten (is.map (specRound phases d)))
  | [] => rfl
  | i :: is => by
    simp only [roundsConcat, roundPicks_eq_specRound i d phases h,
      roundsConcat_eq_flatten phases d h is, List.map_cons,
      bind, Except.bind, pure, Except.pure]
    simp

theorem length_specRound (phases : List (List α)) (d : α) (i : Nat) :
    (specRound phases d i).length = phases.length := by
  simp [specRound]

theorem length_specSequence (phases : List (List α)) (d : α) :
    (specSequence phases d).length = phases.length * maxLenOf phases := by
  simp only [specSequence, List.length_flatten, List.map_map]
  have : ((List.range (maxLenOf phases)).map
      (List.length ∘ specRound phases d)) =
      (List.range (maxLenOf phases)).map (fun _ => phases.length) := by
    apply List.map_congr_left
    intro i _
    simp [length_specRound]
  rw [this]
  simp [List.map_const', Nat.mul_comm]

/-- C1 (counterexample): on the groups `[[0,1],[2,3,4]]` of lengths 2
and 3 the builder returns a sequence of length 6 = K * max(L_k), not
sum(L_k) = 5 as the claim states. -/
theorem getPhases_length_not_sum :
    getPhases ([[0, 1], [2, 3, 4]] : List (List Nat)) = Except.ok [0, 2, 1, 3, 0, 4] ∧
    ([0, 2, 1, 3, 0, 4] : List Nat).length = 6 ∧
    (([[0, 1], [2, 3, 4]] : List (List Nat)).map List.length).sum = 5 ∧
    (6 : Nat) ≠ 5 :=
  ⟨rfl, rfl, rfl, by decide⟩

/-- C1 (amended): for K >= 1 phase groups, all non-empty, the sequence
builder succeeds and produces exactly the round-robin interleaving of
the design document: the concatenation, over round index `i` in
`[0, max(L_k))`, of the rounds containing each group element at index
`i mod L_k` once, in group-declaration order.  The total length is
`K * max(L_k)` (shorter groups repeat), which equals `sum(L_k)` only
when all group lengths are equal. -/
theorem getPhases_roundRobin (phases : List (List α)) (d : α)
    (hK : phases ≠ []) (hpos : ∀ g ∈ phases, g ≠ []) :
    getPhases phases = Except.ok (specSequence phases d) ∧
    (specSequence phases d).length = phases.length * maxLenOf phases := by
  constructor
  · match phases, hK with
    | g :: gs, _ =>
      exact roundsConcat_eq_flatten (g :: gs) d hpos (List.range (maxLenOf (g :: gs)))
  · exact length_specSequence phases d

/-- Witness for C1 (amended) at the concrete groups `[[0,1],[2,3,4]]`. -/
theorem getPhases_roundRobin_witness :
    (([[0, 1], [2, 3, 4]] : List (List Nat)) ≠ []) ∧
    (∀ g ∈ ([[0, 1], [2, 3, 4]] : List (List Nat)), g ≠ []) ∧
    (getPhases ([[0, 1], [2, 3, 4]] : List (List Nat)) =
        Except.ok (specSequence [[0, 1], [2, 3, 4]] 0) ∧
      (specSequence ([[0, 1], [2, 3, 4]] : List (List Nat)) 0).length =
        ([[0, 1], [2, 3, 4]] : List (List Nat)).length *
          maxLenOf ([[0, 1], [2, 3, 4]] : List (List Nat))) :=
  ⟨by decide, by decide, getPhases_roundRobin [[0, 1], [2, 3, 4]] 0 (by decide) (by decide)⟩

/-- C8: a configuration containing a zero-length phase group does not
fail fast with a configuration error: with groups `[[0], []]` the build
raises `ZeroDivisionError` from the modulo `i % len(phase)` itself, and
with all groups empty (`[[], []]`) it silently returns an empty
sequence with no error at all. -/
theorem getPhases_zero_group_behavior :
    getPhases ([[0], []] : List (List Nat)) = Except.error BuildError.zeroDivisionError ∧
    getPhases ([[], []] : List (List Nat)) = Except.ok [] :=
  ⟨rfl, rfl⟩

/-! ## Transition-engine theorems -/

/-- C4: while a transition is in flight, any soft-move request — to a
neighbour, to an ending node, or even a null target — is silently
dropped: the engine state, including the pending target, the progress
accumulator and the fading flag, is returned unchanged. -/
theorem change_phase_dropped_while_fading [DecidableEq α] (rg : List α)
    (t : Option (NodeId α)) (s : GameState α) (h : s.is_fading = true) :
    change_phase rg t s = PyResult.ok s := by
  simp [change_phase, h]

/-- Witness for C4 on a concrete in-flight transition. -/
theorem change_phase_dropped_while_fading_witness :
    (fadingState 1).is_fading = true ∧
    change_phase rg2 (some (NodeId.ringIdx 0)) (fadingState 1) =
      PyResult.ok (fadingState 1) :=
  ⟨rfl, change_phase_dropped_while_fading rg2 (some (NodeId.ringIdx 0)) (fadingState 1) rfl⟩

/-- C9: a soft-move request with a null target, issued while steady, is
executed as a soft move to the ring head — it behaves exactly like a
request for ring node 0 and starts a fade toward it — and when the ring
is empty the process exits with status 1. -/
theorem change_phase_null_target [DecidableEq α] (rg : List α) (s : GameState α)
    (hsteady : s.is_fading = false) :
    (rg = [] → change_phase rg none s = PyResult.exit 1) ∧
    (rg ≠ [] →
      change_phase rg none s = change_phase rg (some (NodeId.ringIdx 0)) s ∧
      ∃ s2, change_phase rg none s = PyResult.ok s2 ∧ s2.is_fading = true ∧
        s2.next_phase = NodeId.ringIdx 0 ∧ s2.fade_step = 0) := by
  constructor
  · intro he
    subst he
    simp [change_phase, hsteady]
  · intro hne
    have hemp : rg.isEmpty = false := by
      simpa [List.isEmpty_iff] using hne
    constructor
    · simp [change_phase, hsteady, hemp]
    · match rg, hne with
      | a :: l, _ =>
        refine ⟨GameState.mk 0 true s.curr_phase (NodeId.ringIdx 0)
            (soundPlay a (soundSetVolume a 0 s.sounds)) s.alphas, ?_, rfl, rfl, rfl⟩
        simp [change_phase, hsteady, start_fade, nodeValue]

/-- Witness for C9 on the concrete two-phase ring and steady engine. -/
theorem change_phase_null_target_witness :
    steadyState.is_fading = false ∧
    ((rg2 = [] → change_phase rg2 none steadyState = PyResult.exit 1) ∧
      (rg2 ≠ [] →
        change_phase rg2 none steadyState =
          change_phase rg2 (some (NodeId.ringIdx 0)) steadyState ∧
        ∃ s2, change_phase rg2 none steadyState = PyResult.ok s2 ∧
          s2.is_fading = true ∧ s2.next_phase = NodeId.ringIdx 0 ∧ s2.fade_step = 0)) :=
  ⟨rfl, change_phase_null_target rg2 steadyState rfl⟩

/-- C10: the hard jump has no null-target guard.  When the current node
is a detached ending node, both its links are unset, so the hard-jump
commands pass `None` to `_set_phase`, which dereferences it
(`phase_node.value`) and raises an uncaught `AttributeError` instead of
falling back to the ring head. -/
theorem set_phase_null_target_crashes [DecidableEq α] (rg : List α) (s : GameState α)
    (e : α) (hcurr : s.curr_phase = NodeId.detached (some e)) :
    nodePrev rg s.curr_phase = none ∧ nodeNext rg s.curr_phase = none ∧
    set_phase rg (nodePrev rg s.curr_phase) s =
      PyResult.error "AttributeError: NoneType has no attribute value" := by
  rw [hcurr]
  refine ⟨rfl, rfl, ?_⟩
  cases h : nodeValue rg s.next_phase with
  | none =>
      simp only [set_phase, h, nodePrev]
      simp [hcurr, nodeValue]
  | some q =>
      simp only [set_phase, h, nodePrev]
      simp [hcurr, nodeValue]

/-- Witness for C10 on a concrete engine whose current node is a
detached ending node. -/
theorem set_phase_null_target_crashes_witness :
    endingState.curr_phase = NodeId.detached (some 99) ∧
    (nodePrev rg2 endingState.curr_phase = none ∧
      nodeNext rg2 endingState.curr_phase = none ∧
      set_phase rg2 (nodePrev rg2 endingState.curr_phase) endingState =
        PyResult.error "AttributeError: NoneType has no attribute value") :=
  ⟨rfl, set_phase_null_target_crashes rg2 endingState 99 rfl⟩

/-- C7: the event dispatch does not guarantee at most one state-affecting
command per input event.  A single `KEYDOWN` of the left arrow with
Ctrl held derives and executes two commands — the plain-key soft move
and the Ctrl hard jump — because the plain-key tests and the
Ctrl-modified block are independent `if` statements. -/
theorem run_ctrl_left_two_commands :
    deriveCommands [] [] { key := Key.left, ctrl := true } =
      [Command.softPrev, Command.hardPrev] ∧
    (deriveCommands [] [] { key := Key.left, ctrl := true }).length = 2 :=
  ⟨rfl, rfl⟩

/-- The increment is 255/300 = 17/20 exactly. -/
theorem inc_eq : fade_step_increment = 17 / 20 := by
  norm_num [fade_step_increment, TOTAL_FADE_STEPS, frames_for_transition,
    TRANSITION_DURATION, FPS]

/-- The alpha scaling factor `255 / TOTAL_FADE_STEPS` is exactly 1. -/
theorem ratio_eq : (255 / TOTAL_FADE_STEPS : ℚ) = 1 := by
  norm_num [TOTAL_FADE_STEPS]

/-- On non-negative rationals, Python truncation is the floor. -/
theorem pyInt_eq_floor (q : ℚ) (h : 0 ≤ q) : pyInt q = ⌊q⌋ := by
  rw [pyInt, if_pos h, Rat.floor_def]

/-- Explicit state equation for a non-completing fading tick. -/
theorem tick_step_eq [DecidableEq α] (rg : List α) (s : GameState α) (np cp : α)
    (hf : s.is_fading = true)
    (hn : nodeValue rg s.next_phase = some np)
    (hc : nodeValue rg s.curr_phase = some cp)
    (hle : s.fade_step + fade_step_increment ≤ TOTAL_FADE_STEPS) :
    draw_tick rg s = PyResult.ok { s with
      fade_step := s.fade_step + fade_step_increment,
      sounds := soundSetVolume cp
          (1 - (pyInt (s.fade_step * (255 / TOTAL_FADE_STEPS)) : ℚ) / 255)
          (soundSetVolume np ((pyInt (s.fade_step * (255 / TOTAL_FADE_STEPS)) : ℚ) / 255)
            s.sounds),
      alphas := fun x =>
        if x = np then pyInt (s.fade_step * (255 / TOTAL_FADE_STEPS)) else s.alphas x } := by
  simp only [draw_tick, hf, if_true, hn, hc]
  rw [if_neg (not_lt.mpr hle)]

/-- Explicit state equation for the completing fading tick. -/
theorem tick_complete_eq [DecidableEq α] (rg : List α) (s : GameState α) (np cp : α)
    (hf : s.is_fading = true)
    (hn : nodeValue rg s.next_phase = some np)
    (hc : nodeValue rg s.curr_phase = some cp)
    (hdone : TOTAL_FADE_STEPS < s.fade_step + fade_step_increment) :
    draw_tick rg s = PyResult.ok { s with
      is_fading := false,
      fade_step := s.fade_step + fade_step_increment,
      sounds := soundStop cp (soundSetVolume cp
          (1 - (pyInt (s.fade_step * (255 / TOTAL_FADE_STEPS)) : ℚ) / 255)
          (soundSetVolume np ((pyInt (s.fade_step * (255 / TOTAL_FADE_STEPS)) : ℚ) / 255)
            s.sounds)),
      alphas := fun x =>
        if x = np then pyInt (s.fade_step * (255 / TOTAL_FADE_STEPS)) else s.alphas x,
      curr_phase := s.next_phase } := by
  simp only [draw_tick, hf, if_true, hn, hc]
  rw [if_pos hdone]

/-- C2 (counterexample): on the completing tick of a concrete
transition toward ring node 1, the engine goes steady and promotes the
pending node to current, but the pending field still holds that same
ring node — it is not reset to the detached placeholder `Node(None)`. -/
theorem draw_tick_no_placeholder_reset :
    resultIsFading (draw_tick rg2 (fadingState 255)) = some false ∧
    resultCurr (draw_tick rg2 (fadingState 255)) = some (NodeId.ringIdx 1) ∧
    resultNext (draw_tick rg2 (fadingState 255)) = some (NodeId.ringIdx 1) ∧
    some (NodeId.ringIdx 1 : NodeId Nat) ≠ some (NodeId.detached (none : Option Nat)) := by
  have hdone : TOTAL_FADE_STEPS < (fadingState 255).fade_step + fade_step_increment := by
    show TOTAL_FADE_STEPS < 255 + fade_step_increment
    rw [inc_eq]
    norm_num [TOTAL_FADE_STEPS]
  have h := tick_complete_eq rg2 (fadingState 255) 20 10 rfl rfl rfl hdone
  refine ⟨?_, ?_, ?_, by decide⟩ <;> rw [h] <;> rfl

/-- C2 (amended): on the tick where the accumulated fade step exceeds
255, the engine leaves the transitioning state, stops the outgoing
node's audio, and reassigns current to pending; the pending field is
left unchanged (still referencing the node just promoted), not reset to
a detached placeholder. -/
theorem draw_tick_completion [DecidableEq α] (rg : List α) (s : GameState α) (np cp : α)
    (hf : s.is_fading = true)
    (hn : nodeValue rg s.next_phase = some np)
    (hc : nodeValue rg s.curr_phase = some cp)
    (hdone : TOTAL_FADE_STEPS < s.fade_step + fade_step_increment) :
    ∃ s2, draw_tick rg s = PyResult.ok s2 ∧
      s2.is_fading = false ∧
      (s2.sounds cp).playing = false ∧
      s2.curr_phase = s.next_phase ∧
      s2.next_phase = s.next_phase := by
  simp only [draw_tick, hf, if_true, hn, hc]
  rw [if_pos hdone]
  exact ⟨_, rfl, rfl, by simp [soundStop], rfl, rfl⟩

/-- Witness for C2 (amended) on a concrete transition whose accumulator
is about to exceed 255. -/
theorem draw_tick_completion_witness :
    (fadingState 255).is_fading = true ∧
    nodeValue rg2 (fadingState 255).next_phase = some 20 ∧
    nodeValue rg2 (fadingState 255).curr_phase = some 10 ∧
    TOTAL_FADE_STEPS < (fadingState 255).fade_step + fade_step_increment ∧
    (∃ s2, draw_tick rg2 (fadingState 255) = PyResult.ok s2 ∧
      s2.is_fading = false ∧
      (s2.sounds 10).playing = false ∧
      s2.curr_phase = (fadingState 255).next_phase ∧
      s2.next_phase = (fadingState 255).next_phase) :=
  ⟨rfl, rfl, rfl, by norm_num [TOTAL_FADE_STEPS, fade_step_increment, frames_for_transition,
      TRANSITION_DURATION, FPS, fadingState, steadyState],
    draw_tick_completion rg2 (fadingState 255) 20 10 rfl rfl rfl
      (by norm_num [TOTAL_FADE_STEPS, fade_step_increment, frames_for_transition,
        TRANSITION_DURATION, FPS, fadingState, steadyState])⟩

/-- C5 (counterexample): after one tick the fade step is 255/300, so
the normalized progress is (255/300)/255, yet the incoming volume the
next tick applies is int(255/300)/255 = 0: the audio volume does not
equal the normalized progress value. -/
theorem draw_tick_volume_not_progress :
    resultVolume (draw_tick rg2 (fadingState (17 / 20))) 20 = some 0 ∧
    ((17 : ℚ) / 20) / 255 ≠ (0 : ℚ) := by
  constructor
  · have hle : (fadingState (17 / 20)).fade_step + fade_step_increment ≤ TOTAL_FADE_STEPS := by
      show (17 : ℚ) / 20 + fade_step_increment ≤ TOTAL_FADE_STEPS
      rw [inc_eq]
      norm_num [TOTAL_FADE_STEPS]
    have h := tick_step_eq rg2 (fadingState (17 / 20)) 20 10 rfl rfl rfl hle
    rw [h]
    have hpy : pyInt ((fadingState (17 / 20)).fade_step * (255 / TOTAL_FADE_STEPS)) = 0 := by
      show pyInt ((17 / 20 : ℚ) * (255 / TOTAL_FADE_STEPS)) = 0
      rw [ratio_eq, mul_one]
      rw [pyInt_eq_floor _ (by norm_num)]
      rw [Int.floor_eq_iff]
      norm_num
    simp [resultVolume, soundSetVolume, hpy]
  · norm_num

/-- C5 (amended): on every tick of an in-flight transition between
nodes with distinct sounds, the incoming background alpha is the fade
step truncated to an integer, the incoming volume is exactly that alpha
divided by 255 (one shared, truncation-quantized linear curve, no
independent easing), and the outgoing volume is exactly 1 minus the
incoming volume. -/
theorem draw_tick_linear_coupling [DecidableEq α] (rg : List α) (s : GameState α) (np cp : α)
    (hf : s.is_fading = true)
    (hn : nodeValue rg s.next_phase = some np)
    (hc : nodeValue rg s.curr_phase = some cp)
    (hne : np ≠ cp) :
    ∃ s2, draw_tick rg s = PyResult.ok s2 ∧
      s2.alphas np = pyInt (s.fade_step * (255 / TOTAL_FADE_STEPS)) ∧
      (s2.sounds np).volume = (pyInt (s.fade_step * (255 / TOTAL_FADE_STEPS)) : ℚ) / 255 ∧
      (s2.sounds cp).volume = 1 - (s2.sounds np).volume := by
  simp only [draw_tick, hf, if_true, hn, hc]
  split
  · exact ⟨_, rfl, by simp, by simp [soundStop, soundSetVolume, hne, Ne.symm hne],
      by simp [soundStop, soundSetVolume, hne, Ne.symm hne]⟩
  · exact ⟨_, rfl, by simp, by simp [soundSetVolume, hne, Ne.symm hne],
      by simp [soundSetVolume, hne, Ne.symm hne]⟩

/-- Engine states with equal fields are equal. -/
theorem gameStateExt {s t : GameState α} (h1 : s.fade_step = t.fade_step)
    (h2 : s.is_fading = t.is_fading) (h3 : s.curr_phase = t.curr_phase)
    (h4 : s.next_phase = t.next_phase) (h5 : s.sounds = t.sounds)
    (h6 : s.alphas = t.alphas) : s = t := by
  cases s
  cases t
  simp_all

/-- Explicit state equation for a successful hard jump whose pending
node has no value (nothing to stop there). -/
theorem set_phase_eq_nonePending [DecidableEq α] (rg : List α) (s : GameState α)
    (nd : NodeId α) (p c : α)
    (hq : nodeValue rg s.next_phase = none)
    (hc : nodeValue rg s.curr_phase = some c)
    (hp : nodeValue rg nd = some p) :
    set_phase rg (some nd) s = PyResult.ok { s with
      is_fading := false, fade_step := 0, curr_phase := nd,
      sounds := soundPlay p (soundSetVolume p 1 (soundStop c s.sounds)) } := by
  simp only [set_phase, hq, hc, hp]

/-- Explicit state equation for a successful hard jump whose pending
node holds the value `q` (its sound is stopped first). -/
theorem set_phase_eq_somePending [DecidableEq α] (rg : List α) (s : GameState α)
    (nd : NodeId α) (p c q : α)
    (hq : nodeValue rg s.next_phase = some q)
    (hc : nodeValue rg s.curr_phase = some c)
    (hp : nodeValue rg nd = some p) :
    set_phase rg (some nd) s = PyResult.ok { s with
      is_fading := false, fade_step := 0, curr_phase := nd,
      sounds := soundPlay p (soundSetVolume p 1 (soundStop c (soundStop q s.sounds))) } := by
  simp only [set_phase, hq, hc, hp]

/-- Witness for C5 (amended) on a concrete mid-transition tick. -/
theorem draw_tick_linear_coupling_witness :
    (fadingState (17 / 20)).is_fading = true ∧
    nodeValue rg2 (fadingState (17 / 20)).next_phase = some 20 ∧
    nodeValue rg2 (fadingState (17 / 20)).curr_phase = some 10 ∧
    (20 : Nat) ≠ 10 ∧
    (∃ s2, draw_tick rg2 (fadingState (17 / 20)) = PyResult.ok s2 ∧
      s2.alphas 20 = pyInt ((fadingState (17 / 20)).fade_step * (255 / TOTAL_FADE_STEPS)) ∧
      (s2.sounds 20).volume =
        (pyInt ((fadingState (17 / 20)).fade_step * (255 / TOTAL_FADE_STEPS)) : ℚ) / 255 ∧
      (s2.sounds 10).volume = 1 - (s2.sounds 20).volume) :=
  ⟨rfl, rfl, rfl, by decide,
    draw_tick_linear_coupling rg2 (fadingState (17 / 20)) 20 10 rfl rfl rfl (by decide)⟩

/-- Peeling the last tick off an iterated run. -/
theorem ticksN_succ_last [DecidableEq α] (rg : List α) :
    ∀ (n : Nat) (s : GameState α),
      ticksN rg (n + 1) s = pyBind (ticksN rg n s) (draw_tick rg)
  | 0, s => by
    cases h : draw_tick rg s <;> simp [ticksN, pyBind, h]
  | n + 1, s => by
    show pyBind (draw_tick rg s) (ticksN rg (n + 1)) =
      pyBind (pyBind (draw_tick rg s) (ticksN rg n)) (draw_tick rg)
    cases h : draw_tick rg s with
    | ok s1 => simpa [pyBind] using ticksN_succ_last rg n s1
    | exit c => simp [pyBind]
    | error m => simp [pyBind]

/-- As long as the accumulated fade never exceeds 255, `n` ticks keep
the engine transitioning, advance the accumulator by exactly
`n * fade_step_increment`, and leave current and pending untouched. -/
theorem ticksN_run [DecidableEq α] (rg : List α) (np cp : α) :
    ∀ (n : Nat) (s : GameState α), s.is_fading = true →
      nodeValue rg s.next_phase = some np →
      nodeValue rg s.curr_phase = some cp →
      s.fade_step + n * fade_step_increment ≤ TOTAL_FADE_STEPS →
      ∃ s2, ticksN rg n s = PyResult.ok s2 ∧ s2.is_fading = true ∧
        s2.fade_step = s.fade_step + n * fade_step_increment ∧
        s2.curr_phase = s.curr_phase ∧ s2.next_phase = s.next_phase
  | 0, s, hf, _, _, _ => ⟨s, rfl, hf, by simp, rfl, rfl⟩
  | n + 1, s, hf, hn, hc, hle => by
    have hinc : (0 : ℚ) ≤ fade_step_increment := by
      rw [inc_eq]
      norm_num
    have hle1 : s.fade_step + fade_step_increment ≤ TOTAL_FADE_STEPS := by
      have hn0 : (0 : ℚ) ≤ (n : ℚ) * fade_step_increment := by positivity
      have : s.fade_step + fade_step_increment ≤
          s.fade_step + ((n : ℚ) + 1) * fade_step_increment := by nlinarith
      calc s.fade_step + fade_step_increment
          ≤ s.fade_step + ((n : ℚ) + 1) * fade_step_increment := this
        _ = s.fade_step + ((n + 1 : Nat) : ℚ) * fade_step_increment := by push_cast; ring
        _ ≤ TOTAL_FADE_STEPS := hle
    have h1 := tick_step_eq rg s np cp hf hn hc hle1
    have hle2 : ({ s with
        fade_step := s.fade_step + fade_step_increment,
        sounds := soundSetVolume cp
            (1 - (pyInt (s.fade_step * (255 / TOTAL_FADE_STEPS)) : ℚ) / 255)
            (soundSetVolume np ((pyInt (s.fade_step * (255 / TOTAL_FADE_STEPS)) : ℚ) / 255)
              s.sounds),
        alphas := fun x =>
          if x = np then pyInt (s.fade_step * (255 / TOTAL_FADE_STEPS)) else s.alphas x } :
        GameState α).fade_step + n * fade_step_increment ≤ TOTAL_FADE_STEPS := by
      show s.fade_step + fade_step_increment + (n : ℚ) * fade_step_increment ≤ TOTAL_FADE_STEPS
      calc s.fade_step + fade_step_increment + (n : ℚ) * fade_step_increment
          = s.fade_step + ((n + 1 : Nat) : ℚ) * fade_step_increment := by push_cast; ring
        _ ≤ TOTAL_FADE_STEPS := hle
    obtain ⟨s2, hticks, h2f, h2fs, h2c, h2n⟩ :=
      ticksN_run rg np cp n ({ s with
        fade_step := s.fade_step + fade_step_increment,
        sounds := soundSetVolume cp
            (1 - (pyInt (s.fade_step * (255 / TOTAL_FADE_STEPS)) : ℚ) / 255)
            (soundSetVolume np ((pyInt (s.fade_step * (255 / TOTAL_FADE_STEPS)) : ℚ) / 255)
              s.sounds),
        alphas := fun x =>
          if x = np then pyInt (s.fade_step * (255 / TOTAL_FADE_STEPS)) else s.alphas x } :
        GameState α) hf hn hc hle2
    refine ⟨s2, ?_, h2f, ?_, h2c, h2n⟩
    · show pyBind (draw_tick rg s) (ticksN rg n) = PyResult.ok s2
      rw [h1]
      simpa [pyBind] using hticks
    · rw [h2fs]
      show s.fade_step + fade_step_increment + (n : ℚ) * fade_step_increment =
        s.fade_step + ((n + 1 : Nat) : ℚ) * fade_step_increment
      push_cast
      ring

/-- C6 (counterexample): over exact rational arithmetic, 300 ticks
after a transition starts the engine is still transitioning (the
accumulator is exactly 255, which does not satisfy the strict exit test
`fade_step > 255`), so the transition does not take exactly 300 ticks. -/
theorem transition_not_steady_at_300 :
    resultIsFading (ticksN rg2 300 (fadingState 0)) = some true ∧
    (some true : Option Bool) ≠ some false := by
  refine ⟨?_, by decide⟩
  obtain ⟨s2, ht, hf2, _, _, _⟩ :=
    ticksN_run rg2 20 10 300 (fadingState 0) rfl rfl rfl
      (by show (0 : ℚ) + (300 : Nat) * fade_step_increment ≤ TOTAL_FADE_STEPS
          rw [inc_eq]
          norm_num [TOTAL_FADE_STEPS])
  rw [ht]
  simp [resultIsFading, hf2]

/-- C6 (amended): with fade duration 5 s at 60 ticks per second the
per-tick increment is 255/300 = 17/20 and, over exact rational
arithmetic, every freshly started transition is still in flight after
300 ticks (the accumulator is then exactly 255, not above it) and
reaches steady on tick 301, with current promoted to the target.
After 150 ticks the incoming background alpha is 126 of 255 and the
accumulator reads exactly 127.5 (so the next tick applies alpha 127,
the value the design document quotes); the applied audio volumes are
126/255 incoming and 129/255 outgoing when the two nodes have distinct
sounds, while in the single-group-of-1-image scenario — a node fading
into itself over one shared sound — that sound reads 129/255, the
outgoing write landing last; in every case the tick-150 volumes are
within 1/100 of 0.5. -/
theorem transition_takes_301_ticks [DecidableEq α] (rg : List α) (s : GameState α)
    (np cp : α)
    (hf : s.is_fading = true)
    (hn : nodeValue rg s.next_phase = some np)
    (hc : nodeValue rg s.curr_phase = some cp)
    (h0 : s.fade_step = 0) :
    (∃ s2, ticksN rg 300 s = PyResult.ok s2 ∧ s2.is_fading = true) ∧
    (∃ s2, ticksN rg 301 s = PyResult.ok s2 ∧ s2.is_fading = false ∧
      s2.curr_phase = s.next_phase) ∧
    (∃ s2, ticksN rg 150 s = PyResult.ok s2 ∧
      s2.alphas np = 126 ∧
      s2.fade_step = 255 / 2 ∧
      (np ≠ cp →
        (s2.sounds np).volume = 126 / 255 ∧
        (s2.sounds cp).volume = 129 / 255 ∧
        |(s2.sounds np).volume - 1 / 2| ≤ 1 / 100 ∧
        |(s2.sounds cp).volume - 1 / 2| ≤ 1 / 100) ∧
      (np = cp →
        (s2.sounds np).volume = 129 / 255 ∧
        |(s2.sounds np).volume - 1 / 2| ≤ 1 / 100)) := by
  have hsucc301 : ticksN rg 301 s = pyBind (ticksN rg 300 s) (draw_tick rg) :=
    ticksN_succ_last rg 300 s
  have hsucc150 : ticksN rg 150 s = pyBind (ticksN rg 149 s) (draw_tick rg) :=
    ticksN_succ_last rg 149 s
  obtain ⟨s300, h300, hf300, hfs300, hc300, hn300⟩ :=
    ticksN_run rg np cp 300 s hf hn hc
      (by rw [h0, inc_eq]; norm_num [TOTAL_FADE_STEPS])
  obtain ⟨s149, h149, hf149, hfs149, hc149, hn149⟩ :=
    ticksN_run rg np cp 149 s hf hn hc
      (by rw [h0, inc_eq]; norm_num [TOTAL_FADE_STEPS])
  have hn300n : nodeValue rg s300.next_phase = some np := by rw [hn300]; exact hn
  have hc300c : nodeValue rg s300.curr_phase = some cp := by rw [hc300]; exact hc
  have hdone : TOTAL_FADE_STEPS < s300.fade_step + fade_step_increment := by
    rw [hfs300, h0, inc_eq]
    norm_num [TOTAL_FADE_STEPS]
  have hcomplete := tick_complete_eq rg s300 np cp hf300 hn300n hc300c hdone
  have hn149n : nodeValue rg s149.next_phase = some np := by rw [hn149]; exact hn
  have hc149c : nodeValue rg s149.curr_phase = some cp := by rw [hc149]; exact hc
  have hle149 : s149.fade_step + fade_step_increment ≤ TOTAL_FADE_STEPS := by
    rw [hfs149, h0, inc_eq]
    norm_num [TOTAL_FADE_STEPS]
  have hstep := tick_step_eq rg s149 np cp hf149 hn149n hc149c hle149
  have hpy : pyInt (s149.fade_step * (255 / TOTAL_FADE_STEPS)) = 126 := by
    rw [hfs149, h0, inc_eq, ratio_eq, mul_one]
    have harg : (0 : ℚ) + (149 : Nat) * (17 / 20) = 2533 / 20 := by
      push_cast
      norm_num
    rw [harg, pyInt_eq_floor _ (by norm_num), Int.floor_eq_iff]
    norm_num
  have h301 : ticksN rg 301 s = PyResult.ok ({ s300 with
      is_fading := false,
      fade_step := s300.fade_step + fade_step_increment,
      sounds := soundStop cp (soundSetVolume cp
          (1 - (pyInt (s300.fade_step * (255 / TOTAL_FADE_STEPS)) : ℚ) / 255)
          (soundSetVolume np ((pyInt (s300.fade_step * (255 / TOTAL_FADE_STEPS)) : ℚ) / 255)
            s300.sounds)),
      alphas := fun x =>
        if x = np then pyInt (s300.fade_step * (255 / TOTAL_FADE_STEPS)) else s300.alphas x,
      curr_phase := s300.next_phase } : GameState α) := by
    rw [hsucc301, h300]
    simpa [pyBind] using hcomplete
  have h150 : ticksN rg 150 s = PyResult.ok ({ s149 with
      fade_step := s149.fade_step + fade_step_increment,
      sounds := soundSetVolume cp
          (1 - (pyInt (s149.fade_step * (255 / TOTAL_FADE_STEPS)) : ℚ) / 255)
          (soundSetVolume np ((pyInt (s149.fade_step * (255 / TOTAL_FADE_STEPS)) : ℚ) / 255)
            s149.sounds),
      alphas := fun x =>
        if x = np then pyInt (s149.fade_step * (255 / TOTAL_FADE_STEPS)) else s149.alphas x } :
      GameState α) := by
    rw [hsucc150, h149]
    simpa [pyBind] using hstep
  refine ⟨⟨s300, h300, hf300⟩, ⟨_, h301, rfl, hn300⟩, ⟨_, h150, ?_, ?_, ?_, ?_⟩⟩
  · show (if np = np then pyInt (s149.fade_step * (255 / TOTAL_FADE_STEPS))
        else s149.alphas np) = 126
    simp [hpy]
  · show s149.fade_step + fade_step_increment = 255 / 2
    rw [hfs149, h0, inc_eq]
    push_cast
    norm_num
  · intro hne
    refine ⟨?_, ?_, ?_, ?_⟩
    · show ((soundSetVolume cp
          (1 - (pyInt (s149.fade_step * (255 / TOTAL_FADE_STEPS)) : ℚ) / 255)
          (soundSetVolume np ((pyInt (s149.fade_step * (255 / TOTAL_FADE_STEPS)) : ℚ) / 255)
            s149.sounds)) np).volume = 126 / 255
      simp [soundSetVolume, hne, hpy]
    · show ((soundSetVolume cp
          (1 - (pyInt (s149.fade_step * (255 / TOTAL_FADE_STEPS)) : ℚ) / 255)
          (soundSetVolume np ((pyInt (s149.fade_step * (255 / TOTAL_FADE_STEPS)) : ℚ) / 255)
            s149.sounds)) cp).volume = 129 / 255
      simp [soundSetVolume, hpy]
      norm_num
    · show |((soundSetVolume cp
          (1 - (pyInt (s149.fade_step * (255 / TOTAL_FADE_STEPS)) : ℚ) / 255)
          (soundSetVolume np ((pyInt (s149.fade_step * (255 / TOTAL_FADE_STEPS)) : ℚ) / 255)
            s149.sounds)) np).volume - 1 / 2| ≤ 1 / 100
      simp [soundSetVolume, hne, hpy]
      rw [abs_le]
      constructor <;> norm_num
    · show |((soundSetVolume cp
          (1 - (pyInt (s149.fade_step * (255 / TOTAL_FADE_STEPS)) : ℚ) / 255)
          (soundSetVolume np ((pyInt (s149.fade_step * (255 / TOTAL_FADE_STEPS)) : ℚ) / 255)
            s149.sounds)) cp).volume - 1 / 2| ≤ 1 / 100
      simp [soundSetVolume, hpy]
      rw [abs_le]
      constructor <;> norm_num
  · intro heq
    subst heq
    constructor
    · show ((soundSetVolume np
          (1 - (pyInt (s149.fade_step * (255 / TOTAL_FADE_STEPS)) : ℚ) / 255)
          (soundSetVolume np ((pyInt (s149.fade_step * (255 / TOTAL_FADE_STEPS)) : ℚ) / 255)
            s149.sounds)) np).volume = 129 / 255
      simp [soundSetVolume, hpy]
      norm_num
    · show |((soundSetVolume np
          (1 - (pyInt (s149.fade_step * (255 / TOTAL_FADE_STEPS)) : ℚ) / 255)
          (soundSetVolume np ((pyInt (s149.fade_step * (255 / TOTAL_FADE_STEPS)) : ℚ) / 255)
            s149.sounds)) np).volume - 1 / 2| ≤ 1 / 100
      simp [soundSetVolume, hpy]
      rw [abs_le]
      constructor <;> norm_num

/-- Witness for C6 (amended) on the design document scenario itself: a
single group of one image, so a soft move fades ring node 0 into
itself over one shared sound. -/
theorem transition_takes_301_ticks_witness :
    selfFadingState.is_fading = true ∧
    nodeValue rg1 selfFadingState.next_phase = some 10 ∧
    nodeValue rg1 selfFadingState.curr_phase = some 10 ∧
    selfFadingState.fade_step = 0 ∧
    ((∃ s2, ticksN rg1 300 selfFadingState = PyResult.ok s2 ∧ s2.is_fading = true) ∧
      (∃ s2, ticksN rg1 301 selfFadingState = PyResult.ok s2 ∧ s2.is_fading = false ∧
        s2.curr_phase = selfFadingState.next_phase) ∧
      (∃ s2, ticksN rg1 150 selfFadingState = PyResult.ok s2 ∧
        s2.alphas 10 = 126 ∧
        s2.fade_step = 255 / 2 ∧
        ((10 : Nat) ≠ 10 →
          (s2.sounds 10).volume = 126 / 255 ∧
          (s2.sounds 10).volume = 129 / 255 ∧
          |(s2.sounds 10).volume - 1 / 2| ≤ 1 / 100 ∧
          |(s2.sounds 10).volume - 1 / 2| ≤ 1 / 100) ∧
        ((10 : Nat) = 10 →
          (s2.sounds 10).volume = 129 / 255 ∧
          |(s2.sounds 10).volume - 1 / 2| ≤ 1 / 100))) :=
  ⟨rfl, rfl, rfl, rfl,
    transition_takes_301_ticks rg1 selfFadingState 10 10 rfl rfl rfl rfl⟩

/-- C3: in every state, steady or mid-transition, the hard jump to a
ring node X is accepted and yields a steady engine (fading flag
cleared, progress 0) with current = X and the sound of X playing at
full volume; the sounds of the previous current node and of the
previous pending node (when distinct from the sound of X) are stopped;
and issuing the same hard jump a second time yields exactly the same
final state. -/
theorem set_phase_hard_jump [DecidableEq α] (rg : List α) (s : GameState α)
    (j : Nat) (p c : α)
    (hp : rg.get? j = some p)
    (hc : nodeValue rg s.curr_phase = some c) :
    ∃ s2, set_phase rg (some (NodeId.ringIdx j)) s = PyResult.ok s2 ∧
      s2.is_fading = false ∧ s2.fade_step = 0 ∧
      s2.curr_phase = NodeId.ringIdx j ∧
      s2.sounds p = { volume := 1, playing := true } ∧
      (c ≠ p → (s2.sounds c).playing = false) ∧
      (∀ q, nodeValue rg s.next_phase = some q → q ≠ p → (s2.sounds q).playing = false) ∧
      pyBind (set_phase rg (some (NodeId.ringIdx j)) s)
          (set_phase rg (some (NodeId.ringIdx j))) =
        set_phase rg (some (NodeId.ringIdx j)) s := by
  have hpn : nodeValue rg (NodeId.ringIdx j) = some p := hp
  rcases hq : nodeValue rg s.next_phase with _ | q
  · have h1 := set_phase_eq_nonePending rg s (NodeId.ringIdx j) p c hq hc hpn
    refine ⟨_, h1, rfl, rfl, rfl, ?_, ?_, ?_, ?_⟩
    · simp [soundPlay, soundSetVolume]
    · intro hcp
      simp [soundPlay, soundSetVolume, soundStop, hcp]
    · intro q2 hq2
      exact Option.noConfusion hq2
    · rw [h1]
      simp only [pyBind]
      have hq2 : nodeValue rg ({ s with
          is_fading := false,
          fade_step := 0,
          curr_phase := NodeId.ringIdx j,
          sounds := soundPlay p (soundSetVolume p 1 (soundStop c s.sounds)) } :
          GameState α).next_phase = none := hq
      have h2 := set_phase_eq_nonePending rg _ (NodeId.ringIdx j) p p hq2 hpn hpn
      rw [h2]
      congr 1
      refine gameStateExt ?_ ?_ ?_ ?_ ?_ ?_
      · exact rfl
      · exact rfl
      · exact rfl
      · exact rfl
      · funext x
        by_cases hxp : x = p
        · subst hxp
          simp [soundPlay, soundSetVolume, soundStop]
        · simp [soundPlay, soundSetVolume, soundStop, hxp]
      · exact rfl
  · have h1 := set_phase_eq_somePending rg s (NodeId.ringIdx j) p c q hq hc hpn
    refine ⟨_, h1, rfl, rfl, rfl, ?_, ?_, ?_, ?_⟩
    · simp [soundPlay, soundSetVolume]
    · intro hcp
      simp [soundPlay, soundSetVolume, soundStop, hcp]
    · intro q2 hq2 hq2p
      injection hq2 with hqq
      subst hqq
      by_cases hqc : q = c
      · subst hqc
        simp [soundPlay, soundSetVolume, soundStop, hq2p]
      · simp [soundPlay, soundSetVolume, soundStop, hq2p, hqc]
    · rw [h1]
      simp only [pyBind]
      have hq2 : nodeValue rg ({ s with
          is_fading := false,
          fade_step := 0,
          curr_phase := NodeId.ringIdx j,
          sounds := soundPlay p (soundSetVolume p 1 (soundStop c (soundStop q s.sounds))) } :
          GameState α).next_phase = some q := hq
      have h2 := set_phase_eq_somePending rg _ (NodeId.ringIdx j) p p q hq2 hpn hpn
      rw [h2]
      congr 1
      refine gameStateExt ?_ ?_ ?_ ?_ ?_ ?_
      · exact rfl
      · exact rfl
      · exact rfl
      · exact rfl
      · funext x
        by_cases hxp : x = p
        · subst hxp
          simp [soundPlay, soundSetVolume, soundStop]
        · by_cases hxq : x = q
          · subst hxq
            by_cases hxc : x = c
            · subst hxc
              simp [soundPlay, soundSetVolume, soundStop, hxp]
            · simp [soundPlay, soundSetVolume, soundStop, hxp, hxc]
          · simp [soundPlay, soundSetVolume, soundStop, hxp, hxq]
      · exact rfl

/-- Witness for C3: hard jump to ring node 1 from the concrete steady
engine whose current node is ring node 0. -/
theorem set_phase_hard_jump_witness :
    rg2.get? 1 = some 20 ∧
    nodeValue rg2 steadyState.curr_phase = some 10 ∧
    (∃ s2, set_phase rg2 (some (NodeId.ringIdx 1)) steadyState = PyResult.ok s2 ∧
      s2.is_fading = false ∧ s2.fade_step = 0 ∧
      s2.curr_phase = NodeId.ringIdx 1 ∧
      s2.sounds 20 = { volume := 1, playing := true } ∧
      ((10 : Nat) ≠ 20 → (s2.sounds 10).playing = false) ∧
      (∀ q, nodeValue rg2 steadyState.next_phase = some q → q ≠ 20 →
        (s2.sounds q).playing = false) ∧
      pyBind (set_phase rg2 (some (NodeId.ringIdx 1)) steadyState)
          (set_phase rg2 (some (NodeId.ringIdx 1))) =
        set_phase rg2 (some (NodeId.ringIdx 1)) steadyState) :=
  ⟨rfl, rfl, set_phase_hard_jump rg2 steadyState 1 20 10 rfl rfl⟩

end Phusic
